import Mathlib

/-!
Verification of BackupManager (src/Code/BackupManager.py).

Shallow embedding of the snapshot/retention engine of `BackupManager.py`:
the retention cleanup (`cleanup_old_backups`, lines 205-235), the backup
cycle (`create_backup`, lines 141-203), the archive file naming
(lines 167-170), the manual and scheduled trigger paths
(`manual_backup_handler`, lines 237-247, and `auto_backup_scheduler`,
lines 249-268).

Filesystem state is modelled explicitly: the destination directory is a
list of files with names and creation times; the source directory is the
result of the `os.walk` enumeration plus the set of files still readable
when `zipf.write` runs (the source may change between the walk and the
write).  Machine strings are Lean `String`s; timestamps are a record of
calendar fields; fallible operations return `Except`.
-/

namespace BackupManager

/-- A file in the destination directory: its name, its filesystem creation
time (`os.path.getctime`), and the archive entry names it contains
(abstracting the zip payload). -/
structure DestFile where
  name : String
  ctime : Nat
  entries : List String
  deriving Repr, DecidableEq

/-- Line 213: `file.startswith(f"{game_name}_backup_") and file.endswith('.zip')`.
The filter deciding which destination files the retention logic treats as
backups of `game_name`.  Python's `startswith`/`endswith` compare character
sequences, modelled on the strings' character lists. -/
def isBackupFile (game_name : String) (file : String) : Bool :=
  List.isPrefixOf (game_name ++ "_backup_").data file.data
    && List.isSuffixOf ".zip".data file.data

/-- Stable insertion into a list sorted by `ctime` ascending: an element is
placed before the first strictly greater key, so elements with equal keys
keep their original relative order. -/
def insertByCtime (x : DestFile) : List DestFile → List DestFile
  | [] => [x]
  | y :: ys => if x.ctime ≤ y.ctime then x :: y :: ys else y :: insertByCtime x ys

/-- Line 218: `backups.sort(key=lambda x: x[1])` — Python's stable sort by
creation time, ascending.  Modelled as stable insertion sort, which agrees
with every stable sort on the `ctime` key. -/
def sortByCtime : List DestFile → List DestFile
  | [] => []
  | x :: xs => insertByCtime x (sortByCtime xs)

/-- Lines 221-229: `while len(backups) > max_backups: old_backup = backups.pop(0); os.remove(...)`.
Returns the files removed, in removal order, and the files kept. -/
def removeExcess (max_backups : Nat) : List DestFile → List DestFile × List DestFile
  | [] => ([], [])
  | b :: rest =>
    if (b :: rest).length > max_backups then
      let p := removeExcess max_backups rest
      (b :: p.1, p.2)
    else ([], b :: rest)

/-- Lines 205-235, `cleanup_old_backups(backup_dir, game_name, max_backups)`:
filter the directory listing to files matching the backup naming filter,
sort by creation time ascending, delete from the front while more than
`max_backups` remain.  Returns (deleted files in deletion order, resulting
directory contents).  Deletion is by file name (`os.remove(file_path)`). -/
def cleanup_old_backups (dest : List DestFile) (game_name : String) (max_backups : Nat) :
    List DestFile × List DestFile :=
  let backups := dest.filter (fun f => isBackupFile game_name f.name)
  let sorted := sortByCtime backups
  let deleted := (removeExcess max_backups sorted).1
  (deleted, dest.filter (fun f => !(deleted.any (fun d => d.name == f.name))))

/-- Calendar timestamp with second resolution: the fields `strftime` reads
from `datetime.now()`. -/
structure Timestamp where
  year : Nat
  month : Nat
  day : Nat
  hour : Nat
  minute : Nat
  second : Nat
  deriving Repr, DecidableEq

/-- Field ranges of a `datetime` value (years restricted to four digits,
which covers every real clock reading). -/
def Timestamp.valid (t : Timestamp) : Prop :=
  1000 ≤ t.year ∧ t.year ≤ 9999 ∧ 1 ≤ t.month ∧ t.month ≤ 12 ∧ 1 ≤ t.day ∧ t.day ≤ 31 ∧
    t.hour ≤ 23 ∧ t.minute ≤ 59 ∧ t.second ≤ 59

instance (t : Timestamp) : Decidable t.valid := by
  unfold Timestamp.valid
  infer_instance

/-- Two-digit zero-padded decimal, as `strftime` prints `%m %d %H %M %S`. -/
def pad2 (n : Nat) : List Char :=
  [Nat.digitChar (n / 10), Nat.digitChar (n % 10)]

/-- Four-digit zero-padded decimal, as `strftime` prints `%Y`. -/
def pad4 (n : Nat) : List Char :=
  [Nat.digitChar (n / 1000), Nat.digitChar (n / 100 % 10),
   Nat.digitChar (n / 10 % 10), Nat.digitChar (n % 10)]

/-- Line 168: `timestamp = datetime.now().strftime("%Y%m%d_%H%M%S")`. -/
def Timestamp.format (t : Timestamp) : String :=
  String.mk (pad4 t.year ++ pad2 t.month ++ pad2 t.day ++ ['_']
    ++ pad2 t.hour ++ pad2 t.minute ++ pad2 t.second)

/-- Line 169: `backup_filename = f"{game_name}_backup_{timestamp}.zip"`. -/
def backupFilename (game_name : String) (t : Timestamp) : String :=
  game_name ++ "_backup_" ++ t.format ++ ".zip"

/-- Line 174: `compress_level = min(max(compress_level, 0), 9)`. -/
def clampLevel (compress_level : Int) : Int :=
  min (max compress_level 0) 9

/-- The argument record of the `zipfile.ZipFile(backup_path, 'w', compression)`
constructor call at line 176: positionally file, mode, compression; the
`compresslevel` parameter is left at its default `None` (zlib picks its own
default), and the `zipf.write(file_path, arcname)` calls at line 182 pass no
per-entry level either, so the archive-level value is what every entry gets. -/
structure ZipOpenArgs where
  mode : String
  deflated : Bool
  compresslevel : Option Int
  deriving Repr, DecidableEq

/-- Lines 172-176: the clamped level is computed (line 174) and the archive
is then opened; the call passes no `compresslevel` argument. -/
def create_backup_zip_args (compress_level : Int) : ZipOpenArgs :=
  let _clamped := clampLevel compress_level
  { mode := "w", deflated := true, compresslevel := none }

/-- The compression level applied to each entry written at line 182:
`zipf.write` passes none of its own, so the archive's `compresslevel`
(left `None` at line 176) is used for every entry. -/
def appliedEntryLevel (compress_level : Int) : Option Int :=
  (create_backup_zip_args compress_level).compresslevel

/-- Effect on the destination directory of opening
`zipfile.ZipFile(backup_path, 'w', ...)` and writing the entries: mode `'w'`
truncates any existing file of that name and replaces it with the new
archive. -/
def zipWrite (dest : List DestFile) (name : String) (ctime : Nat) (entries : List String) :
    List DestFile :=
  dest.filter (fun f => !(f.name == name)) ++ [⟨name, ctime, entries⟩]

/-- Outcome of one `create_backup` call, one constructor per `return` site:
`success` (line 199), `sourceMissing` (line 150), `emptySource` (line 165),
`fatalError` (the catch-all at lines 201-203). -/
inductive CycleOutcome where
  | success
  | sourceMissing
  | emptySource
  | fatalError
  deriving Repr, DecidableEq

/-- The filesystem as one backup cycle observes it: whether the source
directory exists when line 147 checks, the files the `os.walk` at lines
159-161 enumerates, the subset of those still readable when `zipf.write`
runs (the source may change in between), whether the destination accepts
the archive open, and the destination directory contents. -/
structure WorldState where
  src_exists : Bool
  src_files : List String
  src_readable : List String
  dest_writable : Bool
  dest : List DestFile
  deriving Repr, DecidableEq

/-- The configuration arguments of `create_backup(source_dir, backup_dir,
game_name, max_backups, compress_level)`. -/
structure BackupConfig where
  source_dir : String
  backup_dir : String
  game_name : String
  max_backups : Nat
  compress_level : Int
  deriving Repr, DecidableEq

/-- Lines 145-199, the body of `create_backup` inside its `try`: check the
source (line 147), enumerate files (lines 158-161), refuse an empty
enumeration (line 163), build the archive name (lines 168-170), open the
archive at its final path and add each still-readable file — the inner
`try` at lines 180-184 absorbs per-file failures and skips the file — then
run `cleanup_old_backups` (line 197).  An exception the body does not catch
(the `ZipFile` open failing on an unwritable destination) is
`Except.error`. -/
def create_backup_raw (cfg : BackupConfig) (w : WorldState) (now : Timestamp)
    (now_ctime : Nat) : Except String (CycleOutcome × List DestFile) :=
  if !w.src_exists then
    .ok (.sourceMissing, w.dest)
  else
    let files_to_backup := w.src_files
    if files_to_backup.isEmpty then
      .ok (.emptySource, w.dest)
    else
      let backup_filename := backupFilename cfg.game_name now
      let _args := create_backup_zip_args cfg.compress_level
      if !w.dest_writable then
        .error "ZipFile open failed"
      else
        let written := files_to_backup.filter (fun f => w.src_readable.contains f)
        let dest1 := zipWrite w.dest backup_filename now_ctime written
        let dest2 := (cleanup_old_backups dest1 cfg.game_name cfg.max_backups).2
        .ok (.success, dest2)

/-- Lines 141-203, `create_backup`: the whole body runs inside `try`, and
the `except Exception` at lines 201-203 turns any escaping exception into a
printed message and `return False`, leaving the filesystem as it was at the
failure point. -/
def create_backup (cfg : BackupConfig) (w : WorldState) (now : Timestamp)
    (now_ctime : Nat) : CycleOutcome × List DestFile :=
  match create_backup_raw cfg w now now_ctime with
  | .ok r => r
  | .error _ => (.fatalError, w.dest)

/-- A trigger's accept decision, as the spec's TriggerCoordinator words it. -/
inductive SubmitOutcome where
  | accepted
  | rejectedBusy
  deriving Repr, DecidableEq

/-- Lines 239-246: the closure `manual_backup_handler` returns prints its
banner and calls `backup_func(source_dir, backup_dir, game_name,
max_backups, compress_level)` unconditionally.  The body reads no
busy/running flag, so its decision does not depend on whether another
cycle is in flight; the `running` argument records that state for the
statement and is ignored exactly as the source ignores it. -/
def manual_handler_submit (running : Bool) : SubmitOutcome :=
  .accepted

/-- The cycle the manual handler executes when invoked (line 243),
regardless of the `running` state of any other cycle. -/
def manual_handler_run (running : Bool) (cfg : BackupConfig) (w : WorldState)
    (now : Timestamp) (now_ctime : Nat) : CycleOutcome × List DestFile :=
  create_backup cfg w now now_ctime

/-- Lines 252-264: one iteration of the `while True` loop of
`auto_backup_scheduler` sleeps and then calls `backup_func` unconditionally;
like the manual handler it consults no busy/running flag. -/
def scheduler_tick_submit (running : Bool) : SubmitOutcome :=
  .accepted

/-- The cycle one scheduler iteration executes (line 264). -/
def scheduler_tick_run (running : Bool) (cfg : BackupConfig) (w : WorldState)
    (now : Timestamp) (now_ctime : Nat) : CycleOutcome × List DestFile :=
  create_backup cfg w now now_ctime

/-- The argument tuple a call site passes to `backup_func`. -/
structure CycleInvocation where
  source_dir : String
  backup_dir : String
  game_name : String
  max_backups : Nat
  compress_level : Int
  deriving Repr, DecidableEq

/-- Line 243: `backup_func(source_dir, backup_dir, game_name, max_backups,
compress_level)` as called by the manual handler. -/
def manual_handler_invocation (source_dir backup_dir game_name : String)
    (max_backups : Nat) (compress_level : Int) : CycleInvocation :=
  ⟨source_dir, backup_dir, game_name, max_backups, compress_level⟩

/-- Line 264: `backup_func(source_dir, backup_dir, game_name, max_backups,
compress_level)` as called by the scheduler loop, which receives
`interval_minutes` as an extra argument but does not forward it. -/
def scheduler_invocation (source_dir backup_dir game_name : String)
    (max_backups : Nat) (interval_minutes : Nat) (compress_level : Int) : CycleInvocation :=
  ⟨source_dir, backup_dir, game_name, max_backups, compress_level⟩

/-- Lines 249-268: the scheduler loop runs cycle after cycle; `env i` is
the filesystem state and clock iteration `i` observes.  The fuel argument
bounds how many iterations are observed — the loop body itself never exits
on a cycle outcome, so every iteration produces exactly one outcome. -/
def auto_backup_scheduler_cycles (cfg : BackupConfig)
    (env : Nat → WorldState × Timestamp × Nat) : Nat → List CycleOutcome
  | 0 => []
  | n + 1 =>
    let e := env n
    (create_backup cfg e.1 e.2.1 e.2.2).1 :: auto_backup_scheduler_cycles cfg env n

/-! ## Properties of the retention sort and selection -/

theorem insertByCtime_perm (x : DestFile) (l : List DestFile) :
    List.Perm (insertByCtime x l) (x :: l) := by
  induction l with
  | nil => simp [insertByCtime]
  | cons y ys ih =>
    rw [insertByCtime]
    by_cases h : x.ctime ≤ y.ctime
    · rw [if_pos h]
    · rw [if_neg h]
      exact (ih.cons y).trans (List.Perm.swap x y ys)

theorem mem_insertByCtime {a x : DestFile} {l : List DestFile} :
    a ∈ insertByCtime x l ↔ a = x ∨ a ∈ l := by
  rw [(insertByCtime_perm x l).mem_iff]
  simp

theorem sortByCtime_perm (l : List DestFile) : List.Perm (sortByCtime l) l := by
  induction l with
  | nil => simp [sortByCtime]
  | cons x xs ih =>
    rw [sortByCtime]
    exact (insertByCtime_perm x (sortByCtime xs)).trans (ih.cons x)

theorem mem_sortByCtime {a : DestFile} {l : List DestFile} :
    a ∈ sortByCtime l ↔ a ∈ l :=
  (sortByCtime_perm l).mem_iff

theorem pairwise_insertByCtime {x : DestFile} {l : List DestFile}
    (h : List.Pairwise (fun a b => a.ctime ≤ b.ctime) l) :
    List.Pairwise (fun a b => a.ctime ≤ b.ctime) (insertByCtime x l) := by
  induction l with
  | nil => simp [insertByCtime]
  | cons y ys ih =>
    rw [insertByCtime]
    rcases List.pairwise_cons.mp h with ⟨hy, hys⟩
    by_cases hxy : x.ctime ≤ y.ctime
    · rw [if_pos hxy]
      refine List.pairwise_cons.mpr ⟨?_, h⟩
      intro b hb
      rcases List.mem_cons.mp hb with rfl | hb
      · exact hxy
      · exact le_trans hxy (hy b hb)
    · rw [if_neg hxy]
      refine List.pairwise_cons.mpr ⟨?_, ih hys⟩
      intro b hb
      rcases mem_insertByCtime.mp hb with rfl | hb
      · exact le_of_not_le hxy
      · exact hy b hb

theorem sortByCtime_pairwise (l : List DestFile) :
    List.Pairwise (fun a b => a.ctime ≤ b.ctime) (sortByCtime l) := by
  induction l with
  | nil => simp [sortByCtime]
  | cons x xs ih =>
    rw [sortByCtime]
    exact pairwise_insertByCtime ih

theorem removeExcess_eq (k : Nat) (l : List DestFile) :
    removeExcess k l = (l.take (l.length - k), l.drop (l.length - k)) := by
  induction l with
  | nil => simp [removeExcess]
  | cons b rest ih =>
    rw [removeExcess]
    by_cases h : (b :: rest).length > k
    · rw [if_pos h, ih]
      have h2 : (b :: rest).length - k = (rest.length - k) + 1 := by
        simp only [List.length_cons] at h ⊢
        omega
      rw [h2]
      simp
    · rw [if_neg h]
      have h2 : (b :: rest).length - k = 0 := by
        simp only [List.length_cons, gt_iff_lt, not_lt] at h ⊢
        omega
      rw [h2]
      simp

/-- The files `cleanup_old_backups` deletes are the initial segment of the
time-sorted matching files, past the retention cap. -/
theorem cleanup_fst_eq (dest : List DestFile) (g : String) (k : Nat) :
    (cleanup_old_backups dest g k).1
      = (sortByCtime (dest.filter fun f => isBackupFile g f.name)).take
          ((dest.filter fun f => isBackupFile g f.name).length - k) := by
  simp only [cleanup_old_backups, removeExcess_eq]
  rw [(sortByCtime_perm _).length_eq]

/-- The directory `cleanup_old_backups` leaves behind: every file whose
name is not among the deleted names. -/
theorem cleanup_snd_eq (dest : List DestFile) (g : String) (k : Nat) :
    (cleanup_old_backups dest g k).2
      = dest.filter
          (fun f => !((cleanup_old_backups dest g k).1.any (fun d => d.name == f.name))) :=
  rfl

/-! ## Claim C1 -/

/-- C1: For every retention cap `keep ≥ 0` (a `Nat`) and every destination
listing with `N` files matching the current label, the retention selection
of `cleanup_old_backups` deletes exactly `max(0, N - keep)` files, always
the oldest by creation timestamp (every deleted file is no newer than any
kept matching file), processed oldest first (the deletion sequence is
ascending in timestamp); and in the concrete scenario with label `TLD`,
retention cap 2, three matching snapshots at times 1 < 2 < 3 and one cycle
creating a fourth at time 4, exactly the two oldest are deleted and the
newest two remain. -/
theorem C1_retention_deletes_oldest_excess (dest : List DestFile) (g : String) (keep : Nat) :
    ((cleanup_old_backups dest g keep).1.length
        = (dest.filter fun x => isBackupFile g x.name).length - keep)
    ∧ (((cleanup_old_backups dest g keep).1.length : ℤ)
        = max 0 (((dest.filter fun x => isBackupFile g x.name).length : ℤ) - (keep : ℤ)))
    ∧ List.Pairwise (fun a b => a.ctime ≤ b.ctime) (cleanup_old_backups dest g keep).1
    ∧ (∀ d ∈ (cleanup_old_backups dest g keep).1,
        ∀ f ∈ (cleanup_old_backups dest g keep).2,
          isBackupFile g f.name = true → d.ctime ≤ f.ctime)
    ∧ (create_backup ⟨"/s", "/d", "TLD", 2, 6⟩
          ⟨true, ["save.dat"], ["save.dat"], true,
           [⟨"TLD_backup_20240101_000000.zip", 1, []⟩,
            ⟨"TLD_backup_20240102_000000.zip", 2, []⟩,
            ⟨"TLD_backup_20240103_000000.zip", 3, []⟩]⟩
          ⟨2024, 1, 4, 0, 0, 0⟩ 4
        = (.success,
           [⟨"TLD_backup_20240103_000000.zip", 3, []⟩,
            ⟨"TLD_backup_20240104_000000.zip", 4, ["save.dat"]⟩])) := by
  have h1 : (cleanup_old_backups dest g keep).1.length
      = (dest.filter fun x => isBackupFile g x.name).length - keep := by
    rw [cleanup_fst_eq]
    simp only [List.length_take]
    have hlen := (sortByCtime_perm (dest.filter fun x => isBackupFile g x.name)).length_eq
    omega
  refine ⟨h1, ?_, ?_, ?_, by decide⟩
  · rw [h1, Int.max_def]
    split_ifs <;> omega
  · rw [cleanup_fst_eq]
    exact List.Pairwise.sublist (List.take_sublist _ _) (sortByCtime_pairwise _)
  · intro d hd f hf hmatch
    rw [cleanup_snd_eq] at hf
    obtain ⟨hfdest, hfname⟩ := List.mem_filter.mp hf
    have hfb : f ∈ dest.filter (fun x => isBackupFile g x.name) :=
      List.mem_filter.mpr ⟨hfdest, hmatch⟩
    have hfs : f ∈ sortByCtime (dest.filter (fun x => isBackupFile g x.name)) :=
      mem_sortByCtime.mpr hfb
    have hsplit := List.take_append_drop
      ((dest.filter (fun x => isBackupFile g x.name)).length - keep)
      (sortByCtime (dest.filter (fun x => isBackupFile g x.name)))
    rw [cleanup_fst_eq] at hd
    rw [← hsplit] at hfs
    rcases List.mem_append.mp hfs with hft | hfdrop
    · exfalso
      have hany : (cleanup_old_backups dest g keep).1.any (fun x => x.name == f.name) = true := by
        rw [cleanup_fst_eq]
        exact List.any_eq_true.mpr ⟨f, hft, by simp⟩
      rw [hany] at hfname
      simp at hfname
    · have hp := sortByCtime_pairwise (dest.filter (fun x => isBackupFile g x.name))
      rw [← hsplit] at hp
      exact (List.pairwise_append.mp hp).2.2 d hd f hfdrop

/-- Witness for C1: the general theorem applied to a concrete listing with
two matching snapshots, cap 1: one file is deleted and it is no newer than
the kept matching file. -/
theorem C1_retention_witness :
    (cleanup_old_backups
        [⟨"TLD_backup_a.zip", 5, []⟩, ⟨"TLD_backup_b.zip", 2, []⟩, ⟨"notes.txt", 9, []⟩]
        "TLD" 1).1.length = 1
    ∧ (⟨"TLD_backup_b.zip", 2, []⟩ : DestFile).ctime
        ≤ (⟨"TLD_backup_a.zip", 5, []⟩ : DestFile).ctime := by
  constructor
  · rw [(C1_retention_deletes_oldest_excess
      [⟨"TLD_backup_a.zip", 5, []⟩, ⟨"TLD_backup_b.zip", 2, []⟩, ⟨"notes.txt", 9, []⟩]
      "TLD" 1).1]
    decide
  · exact (C1_retention_deletes_oldest_excess
      [⟨"TLD_backup_a.zip", 5, []⟩, ⟨"TLD_backup_b.zip", 2, []⟩, ⟨"notes.txt", 9, []⟩]
      "TLD" 1).2.2.2.1 _ (by decide) _ (by decide) (by decide)

/-! ## Injectivity of the archive timestamp format -/

theorem digitChar_inj : ∀ a : Nat, a < 10 → ∀ b : Nat, b < 10 →
    Nat.digitChar a = Nat.digitChar b → a = b := by
  decide

theorem Timestamp.format_inj {t u : Timestamp} (ht : t.valid) (hu : u.valid)
    (h : Timestamp.format t = Timestamp.format u) : t = u := by
  obtain ⟨ty, tmo, td, th, tmi, ts⟩ := t
  obtain ⟨uy, umo, ud, uh, umi, us⟩ := u
  simp only [Timestamp.valid] at ht hu
  obtain ⟨ht1, ht2, ht3, ht4, ht5, ht6, ht7, ht8, ht9⟩ := ht
  obtain ⟨hu1, hu2, hu3, hu4, hu5, hu6, hu7, hu8, hu9⟩ := hu
  simp only [Timestamp.format] at h
  have h' := congrArg String.data h
  simp only [pad4, pad2, List.cons_append, List.nil_append, List.cons.injEq, and_true] at h'
  obtain ⟨e1, e2, e3, e4, e5, e6, e7, e8, -, e9, e10, e11, e12, e13, e14⟩ := h'
  have y1 := digitChar_inj _ (by omega) _ (by omega) e1
  have y2 := digitChar_inj _ (by omega) _ (by omega) e2
  have y3 := digitChar_inj _ (by omega) _ (by omega) e3
  have y4 := digitChar_inj _ (by omega) _ (by omega) e4
  have mo1 := digitChar_inj _ (by omega) _ (by omega) e5
  have mo2 := digitChar_inj _ (by omega) _ (by omega) e6
  have d1 := digitChar_inj _ (by omega) _ (by omega) e7
  have d2 := digitChar_inj _ (by omega) _ (by omega) e8
  have h1 := digitChar_inj _ (by omega) _ (by omega) e9
  have h2 := digitChar_inj _ (by omega) _ (by omega) e10
  have mi1 := digitChar_inj _ (by omega) _ (by omega) e11
  have mi2 := digitChar_inj _ (by omega) _ (by omega) e12
  have s1 := digitChar_inj _ (by omega) _ (by omega) e13
  have s2 := digitChar_inj _ (by omega) _ (by omega) e14
  simp only [Timestamp.mk.injEq]
  omega

theorem backupFilename_inj {g : String} {t u : Timestamp} (ht : t.valid) (hu : u.valid)
    (h : backupFilename g t = backupFilename g u) : t = u := by
  apply Timestamp.format_inj ht hu
  unfold backupFilename at h
  have hd := congrArg String.data h
  simp only [String.data_append] at hd
  have hpeel := List.append_inj' hd rfl
  exact String.ext (List.append_cancel_left hpeel.1)

/-! ## Claim C2 -/

/-- C2 counterexample: with a cycle already in flight (`running = true`), a
manual trigger is not rejected with Busy — its accept decision is
`accepted`, and the handler executes a full second cycle, which succeeds.
The scheduled path likewise never rejects. -/
theorem C2_busy_rejection_counterexample :
    manual_handler_submit true = .accepted
    ∧ manual_handler_submit true ≠ .rejectedBusy
    ∧ scheduler_tick_submit true = .accepted
    ∧ (manual_handler_run true ⟨"/s", "/d", "TLD", 50, 6⟩
        ⟨true, ["save.dat"], ["save.dat"], true, []⟩ ⟨2024, 1, 1, 0, 0, 0⟩ 1).1
        = .success := by
  decide

/-- C2 amended: neither trigger path consults any Idle/Running state — the
manual handler and the scheduler iteration both invoke the identical backup
cycle unconditionally, whatever the state of any in-flight cycle, and no
Busy rejection or check-and-set exists in the code. -/
theorem C2_triggers_unconditional (running : Bool) (cfg : BackupConfig) (w : WorldState)
    (now : Timestamp) (now_ctime : Nat) :
    manual_handler_submit running = .accepted
    ∧ scheduler_tick_submit running = .accepted
    ∧ manual_handler_run running cfg w now now_ctime = create_backup cfg w now now_ctime
    ∧ scheduler_tick_run running cfg w now now_ctime = create_backup cfg w now now_ctime :=
  ⟨rfl, rfl, rfl, rfl⟩

/-! ## Claim C3 -/

/-- Opening the same archive name with mode `'w'` a second time replaces
the first archive: the destination keeps no trace of the first write. -/
theorem zipWrite_same_name_overwrites (dest : List DestFile) (name : String)
    (c1 c2 : Nat) (e1 e2 : List String) :
    zipWrite (zipWrite dest name c1 e1) name c2 e2 = zipWrite dest name c2 e2 := by
  simp [zipWrite, List.filter_append, List.filter_filter]

/-- C3 counterexample: two cycles started within the same second build the
identical archive name, and the second silently replaces the first — both
report success, no collision failure and no disambiguating suffix occurs:
after the second cycle exactly one file stands at the shared name, holding
only the second cycle's contents, and the first cycle's archive is gone. -/
theorem C3_same_second_overwrite_counterexample :
    backupFilename "TLD" ⟨2024, 1, 1, 12, 0, 0⟩ = backupFilename "TLD" ⟨2024, 1, 1, 12, 0, 0⟩
    ∧ (create_backup ⟨"/s", "/d", "TLD", 50, 6⟩ ⟨true, ["a.txt"], ["a.txt"], true, []⟩
        ⟨2024, 1, 1, 12, 0, 0⟩ 10).1 = .success
    ∧ (create_backup ⟨"/s", "/d", "TLD", 50, 6⟩
        ⟨true, ["b.txt"], ["b.txt"], true,
          (create_backup ⟨"/s", "/d", "TLD", 50, 6⟩ ⟨true, ["a.txt"], ["a.txt"], true, []⟩
            ⟨2024, 1, 1, 12, 0, 0⟩ 10).2⟩
        ⟨2024, 1, 1, 12, 0, 0⟩ 10)
      = (.success, [⟨"TLD_backup_20240101_120000.zip", 10, ["b.txt"]⟩]) := by
  decide

/-- C3 amended: archive names are `<label>_backup_<YYYYMMDD_HHMMSS>.zip`
with second-level resolution, and cycles whose start times differ in any
calendar field — in particular cycles started at least one second apart —
never collide, the name map being injective on valid timestamps; but two
cycles started within the same second produce the identical name, and the
second `ZipFile(..., 'w')` open silently replaces the first archive: no
`ArchiveNameCollision` failure and no disambiguating suffix exists. -/
theorem C3_distinct_seconds_never_collide (g : String) (t u : Timestamp)
    (ht : t.valid) (hu : u.valid) (hne : t ≠ u) :
    backupFilename g t ≠ backupFilename g u
    ∧ backupFilename g t = g ++ "_backup_" ++ t.format ++ ".zip"
    ∧ ∀ (dest : List DestFile) (c1 c2 : Nat) (e1 e2 : List String) (name : String),
        zipWrite (zipWrite dest name c1 e1) name c2 e2 = zipWrite dest name c2 e2 := by
  refine ⟨fun hcoll => hne (backupFilename_inj ht hu hcoll), rfl,
    fun dest c1 c2 e1 e2 name => zipWrite_same_name_overwrites dest name c1 c2 e1 e2⟩

/-- Witness for C3 (amended): two concrete start times one second apart get
distinct archive names. -/
theorem C3_collision_witness :
    backupFilename "TLD" ⟨2024, 1, 1, 12, 0, 0⟩ ≠ backupFilename "TLD" ⟨2024, 1, 1, 12, 0, 1⟩ :=
  (C3_distinct_seconds_never_collide "TLD" ⟨2024, 1, 1, 12, 0, 0⟩ ⟨2024, 1, 1, 12, 0, 1⟩
    (by decide) (by decide) (by decide)).1

/-! ## Claim C4 -/

/-- C4 (code bug): line 174 clamps the configured compression level into
[0, 9], but the `ZipFile` constructor call at line 176 and the `write`
calls at line 182 never receive it — the `compresslevel` they pass stays
`None` — so the clamped configured level is not the level applied to the
entries; at configured level 0 the applied level is `None`, not the
clamped 0. -/
theorem C4_clamped_level_never_passed :
    (∀ l : Int, 0 ≤ clampLevel l ∧ clampLevel l ≤ 9)
    ∧ (∀ l : Int, appliedEntryLevel l = none)
    ∧ appliedEntryLevel 0 ≠ some (clampLevel 0) := by
  refine ⟨fun l => ⟨le_min (le_max_right l 0) (by norm_num), min_le_right _ _⟩,
    fun l => rfl, by decide⟩

/-! ## Claim C5 -/

/-- When the matching files fit within the retention cap,
`cleanup_old_backups` deletes nothing and leaves the directory as is. -/
theorem cleanup_within_cap (dest : List DestFile) (g : String) (k : Nat)
    (h : (dest.filter fun x => isBackupFile g x.name).length ≤ k) :
    cleanup_old_backups dest g k = ([], dest) := by
  have h1 : (cleanup_old_backups dest g k).1 = [] := by
    rw [cleanup_fst_eq]
    have h0 : (dest.filter fun x => isBackupFile g x.name).length - k = 0 := by omega
    rw [h0, List.take_zero]
  rw [Prod.ext_iff]
  refine ⟨h1, ?_⟩
  rw [cleanup_snd_eq, h1]
  simp

/-- C5 counterexample: the source directory vanishes between the `os.walk`
enumeration and the archive write (no enumerated file is still readable
when `zipf.write` runs).  The claim says the writer fails cleanly and
leaves no file; instead the inner per-file handler swallows every failure,
the cycle reports success, and an archive with zero entries stands at the
final name in the destination. -/
theorem C5_vanished_source_counterexample :
    create_backup ⟨"/s", "/d", "TLD", 50, 6⟩ ⟨true, ["save.dat"], [], true, []⟩
        ⟨2024, 1, 1, 0, 0, 0⟩ 7
      = (.success, [⟨"TLD_backup_20240101_000000.zip", 7, []⟩]) := by
  decide

/-- C5 amended: the archive is written directly at its final destination
name — there is no temporary-plus-rename step.  A cycle whose source exists,
enumerates at least one file, and whose destination is writable always
succeeds, its destination becoming the retention cleanup of the old
contents plus the archive at the final name holding exactly the
still-readable files; within the retention cap that is the old contents
plus exactly one new file when the name is fresh; and when the source has
vanished after enumeration the cycle still succeeds, leaving a zero-entry
archive at the final name rather than failing cleanly with no file. -/
theorem C5_direct_final_name_write (cfg : BackupConfig) (w : WorldState) (now : Timestamp)
    (now_ctime : Nat) (hsrc : w.src_exists = true) (hfiles : w.src_files ≠ [])
    (hdest : w.dest_writable = true) :
    ((create_backup cfg w now now_ctime).1 = .success)
    ∧ (create_backup cfg w now now_ctime).2
        = (cleanup_old_backups
            (zipWrite w.dest (backupFilename cfg.game_name now) now_ctime
              (w.src_files.filter (fun f => w.src_readable.contains f)))
            cfg.game_name cfg.max_backups).2
    ∧ (((zipWrite w.dest (backupFilename cfg.game_name now) now_ctime
          (w.src_files.filter (fun f => w.src_readable.contains f))).filter
            (fun x => isBackupFile cfg.game_name x.name)).length ≤ cfg.max_backups →
        (create_backup cfg w now now_ctime).2
          = zipWrite w.dest (backupFilename cfg.game_name now) now_ctime
              (w.src_files.filter (fun f => w.src_readable.contains f)))
    ∧ ((∀ f ∈ w.dest, f.name ≠ backupFilename cfg.game_name now) →
        (zipWrite w.dest (backupFilename cfg.game_name now) now_ctime
          (w.src_files.filter (fun f => w.src_readable.contains f))).length
          = w.dest.length + 1)
    ∧ (w.src_readable = [] →
        (⟨backupFilename cfg.game_name now, now_ctime, []⟩ : DestFile)
          ∈ zipWrite w.dest (backupFilename cfg.game_name now) now_ctime
              (w.src_files.filter (fun f => w.src_readable.contains f))) := by
  have hmain : create_backup cfg w now now_ctime
      = (.success,
         (cleanup_old_backups
            (zipWrite w.dest (backupFilename cfg.game_name now) now_ctime
              (w.src_files.filter (fun f => w.src_readable.contains f)))
            cfg.game_name cfg.max_backups).2) := by
    simp [create_backup, create_backup_raw, hsrc, hdest, List.isEmpty_iff, hfiles]
  refine ⟨by rw [hmain], by rw [hmain], ?_, ?_, ?_⟩
  · intro hcap
    rw [hmain]
    rw [cleanup_within_cap _ _ _ hcap]
  · intro hfresh
    unfold zipWrite
    rw [List.length_append]
    have : w.dest.filter (fun f => !(f.name == backupFilename cfg.game_name now)) = w.dest := by
      rw [List.filter_eq_self]
      intro a ha
      simpa using hfresh a ha
    rw [this]
    rfl
  · intro hvanish
    rw [hvanish]
    simp [zipWrite]

/-- Witness for C5 (amended): the general theorem applied at a concrete
world whose source vanished after enumeration — the cycle nevertheless
succeeds. -/
theorem C5_direct_write_witness :
    (create_backup ⟨"/s", "/d", "TLD", 50, 6⟩ ⟨true, ["save.dat"], [], true, []⟩
        ⟨2024, 1, 1, 0, 0, 0⟩ 7).1 = .success :=
  (C5_direct_final_name_write ⟨"/s", "/d", "TLD", 50, 6⟩
    ⟨true, ["save.dat"], [], true, []⟩ ⟨2024, 1, 1, 0, 0, 0⟩ 7
    rfl (by decide) rfl).1

/-! ## Claim C6 -/

/-- Inserting into the retention sort never reorders an equal-timestamp
class: the elements with any fixed creation time keep their relative
order. -/
theorem filter_ctime_insertByCtime (x : DestFile) (l : List DestFile) (c : Nat) :
    (insertByCtime x l).filter (fun e => e.ctime == c)
      = (x :: l).filter (fun e => e.ctime == c) := by
  induction l with
  | nil => rfl
  | cons y ys ih =>
    rw [insertByCtime]
    by_cases h : x.ctime ≤ y.ctime
    · rw [if_pos h]
    · rw [if_neg h]
      have hyx : y.ctime < x.ctime := lt_of_not_le h
      by_cases hx : x.ctime = c <;> by_cases hy : y.ctime = c
      · exfalso
        omega
      · simp [List.filter_cons, ih, hx, hy]
      · simp [List.filter_cons, ih, hx, hy]
      · simp [List.filter_cons, ih, hx, hy]

/-- The retention sort is stable: within each equal-timestamp class the
sorted order is exactly the directory listing order. -/
theorem filter_ctime_sortByCtime (l : List DestFile) (c : Nat) :
    (sortByCtime l).filter (fun e => e.ctime == c) = l.filter (fun e => e.ctime == c) := by
  induction l with
  | nil => rfl
  | cons x xs ih =>
    rw [sortByCtime, filter_ctime_insertByCtime]
    simp only [List.filter_cons, ih]

/-- C6 counterexample: two matching snapshots share a creation timestamp
and are listed in reverse lexical order.  Retention deletes the first
listed — the lexically greater name — while the lexically smaller name
survives, and listing the same set in the other order deletes the other
file: the tie is not broken by filename lexical order, and the selection is
not determined by the input set alone. -/
theorem C6_tie_not_lexical_counterexample :
    (cleanup_old_backups
        [⟨"TLD_backup_b.zip", 5, []⟩, ⟨"TLD_backup_a.zip", 5, []⟩] "TLD" 1).1
      = [⟨"TLD_backup_b.zip", 5, []⟩]
    ∧ List.Lex (· < ·) "TLD_backup_a.zip".data "TLD_backup_b.zip".data
    ∧ (⟨"TLD_backup_a.zip", 5, []⟩ : DestFile)
        ∈ (cleanup_old_backups
            [⟨"TLD_backup_b.zip", 5, []⟩, ⟨"TLD_backup_a.zip", 5, []⟩] "TLD" 1).2
    ∧ (cleanup_old_backups
        [⟨"TLD_backup_a.zip", 5, []⟩, ⟨"TLD_backup_b.zip", 5, []⟩] "TLD" 1).1
      = [⟨"TLD_backup_a.zip", 5, []⟩] := by
  decide

/-- C6 amended: retention orders the matching descriptors by creation
timestamp ascending, and ties are broken by position in the directory
listing — the sort is stable, so each equal-timestamp class keeps its
listing order — not by filename lexical order; the selection is therefore
a deterministic function of the listed sequence, but not of the underlying
set. -/
theorem C6_sort_stable_by_listing_order (l : List DestFile) (c : Nat) :
    List.Pairwise (fun a b => a.ctime ≤ b.ctime) (sortByCtime l)
    ∧ (sortByCtime l).filter (fun e => e.ctime == c) = l.filter (fun e => e.ctime == c) :=
  ⟨sortByCtime_pairwise l, filter_ctime_sortByCtime l c⟩

/-! ## Claim C8 -/

/-- The timestamp part of an archive name is always fifteen characters. -/
theorem format_data_length (t : Timestamp) : (Timestamp.format t).data.length = 15 := by
  simp [Timestamp.format, pad4, pad2]

/-- The timestamp part of an archive name, measured as string length. -/
theorem format_length (t : Timestamp) : (Timestamp.format t).length = 15 :=
  format_data_length t

/-- C8 counterexample: a snapshot named by the convention of the different
label `TLD_backup_A` also passes label `TLD`'s prefix/suffix test, and a
`TLD` cycle's retention deletes it; likewise a file with the `TLD_backup_`
prefix but no timestamp-shaped remainder is treated as a snapshot and
deleted. -/
theorem C8_cross_label_deletion_counterexample :
    isBackupFile "TLD" (backupFilename "TLD_backup_A" ⟨2024, 1, 1, 0, 0, 0⟩) = true
    ∧ "TLD_backup_A" ≠ "TLD"
    ∧ (cleanup_old_backups
        [⟨backupFilename "TLD_backup_A" ⟨2024, 1, 1, 0, 0, 0⟩, 1, []⟩] "TLD" 0).1
      = [⟨backupFilename "TLD_backup_A" ⟨2024, 1, 1, 0, 0, 0⟩, 1, []⟩]
    ∧ isBackupFile "TLD" "TLD_backup_notes.zip" = true
    ∧ (cleanup_old_backups [⟨"TLD_backup_notes.zip", 1, []⟩] "TLD" 0).1
      = [⟨"TLD_backup_notes.zip", 1, []⟩] := by
  decide

/-- C8 amended: retention considers exactly the files whose names carry the
`<label>_backup_` prefix and the `.zip` suffix — every deleted file passes
that test, and a file failing it is never deleted by any cycle — but this
test is coarser than the full naming convention: a name can pass it without
being `<label>_backup_<timestamp>.zip` for the current label (for instance
`TLD_backup_notes.zip`, which is no `TLD` convention name for any
timestamp), and a snapshot of a different label whose name begins with
`<label>_backup_` can be selected. -/
theorem C8_retention_filter_prefix_suffix (dest : List DestFile) (g : String) (k : Nat) :
    (∀ d ∈ (cleanup_old_backups dest g k).1, isBackupFile g d.name = true)
    ∧ (∀ f ∈ dest, isBackupFile g f.name = false → f ∈ (cleanup_old_backups dest g k).2)
    ∧ (∀ t : Timestamp, backupFilename "TLD" t ≠ "TLD_backup_notes.zip") := by
  have h1 : ∀ d ∈ (cleanup_old_backups dest g k).1, isBackupFile g d.name = true := by
    intro d hd
    rw [cleanup_fst_eq] at hd
    have hmem : d ∈ sortByCtime (dest.filter fun x => isBackupFile g x.name) :=
      List.mem_of_mem_take hd
    exact (List.mem_filter.mp (mem_sortByCtime.mp hmem)).2
  refine ⟨h1, ?_, ?_⟩
  · intro f hf hnot
    rw [cleanup_snd_eq]
    refine List.mem_filter.mpr ⟨hf, ?_⟩
    rw [Bool.not_eq_eq_eq_not, Bool.not_true, List.any_eq_false]
    intro d hd
    have hdm := h1 d hd
    intro heq
    rw [eq_of_beq heq, hnot] at hdm
    exact Bool.false_ne_true hdm
  · intro t h
    have hlen := congrArg (fun s : String => s.data.length) h
    simp [backupFilename, String.data_append, List.length_append,
      format_data_length, format_length] at hlen

/-- Witness for C8 (amended): a file without the backup prefix survives a
cycle that deletes every matching snapshot (cap 0). -/
theorem C8_unrelated_file_witness :
    (⟨"notes.txt", 0, []⟩ : DestFile)
      ∈ (cleanup_old_backups
          [⟨"TLD_backup_20240101_000000.zip", 1, []⟩, ⟨"notes.txt", 0, []⟩] "TLD" 0).2 :=
  (C8_retention_filter_prefix_suffix
    [⟨"TLD_backup_20240101_000000.zip", 1, []⟩, ⟨"notes.txt", 0, []⟩] "TLD" 0).2.1
    _ (by decide) (by decide)

/-! ## Claim C7 -/

/-- C7: with an existing source directory whose recursive enumeration
yields zero files, `create_backup` returns the empty-source failure and
leaves the destination directory untouched — no archive file is created. -/
theorem C7_empty_source_refused (cfg : BackupConfig) (w : WorldState) (now : Timestamp)
    (now_ctime : Nat) (hsrc : w.src_exists = true) (hempty : w.src_files = []) :
    create_backup cfg w now now_ctime = (.emptySource, w.dest) := by
  simp [create_backup, create_backup_raw, hsrc, hempty]

/-- Witness for C7: an existing, empty source next to a destination holding
one unrelated file. -/
theorem C7_empty_source_witness :
    create_backup ⟨"/s", "/d", "TLD", 50, 6⟩ ⟨true, [], [], true, [⟨"x.txt", 0, []⟩]⟩
        ⟨2024, 1, 1, 0, 0, 0⟩ 1
      = (.emptySource, [⟨"x.txt", 0, []⟩]) :=
  C7_empty_source_refused _ _ _ _ rfl rfl

/-! ## Claim C9 -/

/-- C9: exceptions never escape a backup cycle — when the body's uncaught
exception path fires, the wrapper returns the fatal-error outcome with the
filesystem as it stood, and when the body completes, the wrapper returns
its result verbatim — and the scheduler loop yields exactly one outcome per
iteration whatever those outcomes are: no cycle result, success or failure,
stops it from triggering subsequent cycles. -/
theorem C9_cycle_never_throws_scheduler_survives :
    (∀ (cfg : BackupConfig) (w : WorldState) (now : Timestamp) (now_ctime : Nat)
        (err : String),
        create_backup_raw cfg w now now_ctime = .error err →
          create_backup cfg w now now_ctime = (.fatalError, w.dest))
    ∧ (∀ (cfg : BackupConfig) (w : WorldState) (now : Timestamp) (now_ctime : Nat)
        (r : CycleOutcome × List DestFile),
        create_backup_raw cfg w now now_ctime = .ok r →
          create_backup cfg w now now_ctime = r)
    ∧ (∀ (cfg : BackupConfig) (env : Nat → WorldState × Timestamp × Nat) (n : Nat),
        (auto_backup_scheduler_cycles cfg env n).length = n) := by
  refine ⟨?_, ?_, ?_⟩
  · intro cfg w now ct err h
    unfold create_backup
    rw [h]
  · intro cfg w now ct r h
    unfold create_backup
    rw [h]
  · intro cfg env n
    induction n with
    | zero => rfl
    | succ m ih => simp [auto_backup_scheduler_cycles, ih]

/-- Witness for C9: a cycle whose archive open fails (unwritable
destination) returns the fatal-error outcome instead of throwing, and a
three-iteration scheduler run over that same failing world still yields
three outcomes. -/
theorem C9_cycle_witness :
    create_backup ⟨"/s", "/d", "TLD", 50, 6⟩ ⟨true, ["a"], ["a"], false, []⟩
        ⟨2024, 1, 1, 0, 0, 0⟩ 1 = (.fatalError, [])
    ∧ (auto_backup_scheduler_cycles ⟨"/s", "/d", "TLD", 50, 6⟩
        (fun _ => (⟨true, ["a"], ["a"], false, []⟩, ⟨2024, 1, 1, 0, 0, 0⟩, 1)) 3).length
        = 3 :=
  ⟨C9_cycle_never_throws_scheduler_survives.1 _ _ _ _ "ZipFile open failed" rfl,
   C9_cycle_never_throws_scheduler_survives.2.2 _ _ 3⟩

/-! ## Claim C10 -/

/-- C10: the manual handler (line 243) and the scheduler loop (line 264)
invoke the identical backup function with the identical argument tuple —
the scheduler's extra `interval_minutes` argument is not forwarded — so on
the same filesystem state and clock, both trigger origins produce the same
cycle outcome and the same destination contents. -/
theorem C10_manual_scheduled_equivalent (source_dir backup_dir game_name : String)
    (max_backups interval_minutes : Nat) (compress_level : Int) (running : Bool)
    (cfg : BackupConfig) (w : WorldState) (now : Timestamp) (now_ctime : Nat) :
    manual_handler_invocation source_dir backup_dir game_name max_backups compress_level
      = scheduler_invocation source_dir backup_dir game_name max_backups
          interval_minutes compress_level
    ∧ manual_handler_run running cfg w now now_ctime
      = scheduler_tick_run running cfg w now now_ctime :=
  ⟨rfl, rfl⟩

end BackupManager

